import Mathlib

/-!
Verification of the cloudron-cli core against its specification.

This file shallowly embeds the exec stream-multiplexing protocol and the
asynchronous-operation polling state machine of `src/app/actions.js`, and the
key-value configuration store of `src/config.js`.  Byte streams are modelled as
`List Nat` (each element a byte value), JavaScript `null`/`undefined` versus
string values as `Option String`, and the Node.js stream primitive
`stream.read(n)` — which returns `null` when `n = 0` or when fewer than `n`
bytes are buffered, and otherwise consumes and returns exactly `n` bytes — as
an explicit buffer-threading function.
-/

/-! ## Big-endian 32-bit integers

`Buffer.writeUInt32BE` / `Buffer.readUInt32BE` from Node, used by `exec` for
the outbound length prefix and by `demuxStream` for the inbound header. -/

/-- The four bytes written by `buf.writeUInt32BE(n, 0)` on a 4-byte buffer. -/
def beBytes4 (n : Nat) : List Nat :=
  [n / 2 ^ 24 % 256, n / 2 ^ 16 % 256, n / 2 ^ 8 % 256, n % 256]

/-- `buffer.readUInt32BE(off)`: big-endian recomposition of the four bytes at
offset `off` (missing positions read as 0; a real 8-byte header always has
them). -/
def readUInt32BE (l : List Nat) (off : Nat) : Nat :=
  ((l.getD off 0 * 256 + l.getD (off + 1) 0) * 256 + l.getD (off + 2) 0) * 256
    + l.getD (off + 3) 0

theorem length_beBytes4 (n : Nat) : (beBytes4 n).length = 4 := rfl

theorem readUInt32BE_beBytes4 (n : Nat) (rest : List Nat) (h : n < 2 ^ 32) :
    readUInt32BE (beBytes4 n ++ rest) 0 = n := by
  simp only [beBytes4, readUInt32BE, List.cons_append, List.nil_append,
    List.getD_cons_zero, List.getD_cons_succ]
  omega

theorem readUInt32BE_header (t r1 r2 r3 n : Nat) (rest : List Nat)
    (h : n < 2 ^ 32) :
    readUInt32BE (t :: r1 :: r2 :: r3 :: (beBytes4 n ++ rest)) 4 = n := by
  simp only [beBytes4, readUInt32BE, List.cons_append, List.nil_append,
    List.getD_cons_zero, List.getD_cons_succ]
  omega

/-! ## C10: the key-value configuration store (`src/config.js`)

`set`/`get`/`unset`/`has` operate on the in-memory object `gConfig` (persisted
with `save()`, which does not change the mapping).  The spec's collaborator
contract declares a flat key namespace, under which `safe.set`/`safe.query`/
`safe.unset` are plain property assignment, lookup and deletion and
`key in gConfig` is property presence; the object is modelled as an
association list without duplicate keys in the range touched by `set`. -/

/-- `config.set(key, value)` for a single (non-object) key: property
assignment, replacing the value at `key` and keeping every other key. -/
def configSet {α : Type} : List (String × α) → String → α → List (String × α)
  | [], k, v => [(k, v)]
  | (k', v') :: rest, k, v =>
    if k' = k then (k, v) :: rest else (k', v') :: configSet rest k v

/-- `config.get(key)`: `safe.query(gConfig, key)`, `none` for `undefined`. -/
def configGet {α : Type} : List (String × α) → String → Option α
  | [], _ => none
  | (k', v') :: rest, k => if k' = k then some v' else configGet rest k

/-- `config.unset(key)`: property deletion. -/
def configUnset {α : Type} : List (String × α) → String → List (String × α)
  | [], _ => []
  | (k', v') :: rest, k =>
    if k' = k then configUnset rest k else (k', v') :: configUnset rest k

/-- `config.has(key)`: `key in gConfig`. -/
def configHas {α : Type} (c : List (String × α)) (k : String) : Bool :=
  (configGet c k).isSome

theorem configGet_configSet_self {α : Type} (c : List (String × α))
    (k : String) (v : α) : configGet (configSet c k v) k = some v := by
  induction c with
  | nil => simp [configSet, configGet]
  | cons p rest ih =>
    by_cases h : p.1 = k
    · simp [configSet, configGet, h]
    · simp [configSet, configGet, h, ih]

theorem configGet_configUnset_self {α : Type} (c : List (String × α))
    (k : String) : configGet (configUnset c k) k = none := by
  induction c with
  | nil => simp [configUnset, configGet]
  | cons p rest ih =>
    by_cases h : p.1 = k
    · simp [configUnset, h, ih]
    · simp [configUnset, configGet, h, ih]

theorem configGet_configSet_other {α : Type} (c : List (String × α))
    (k k' : String) (v : α) (hne : k' ≠ k) :
    configGet (configSet c k v) k' = configGet c k' := by
  induction c with
  | nil => simp [configSet, configGet, Ne.symm hne]
  | cons p rest ih =>
    by_cases h : p.1 = k
    · simp [configSet, configGet, h, Ne.symm hne]
    · simp [configSet, configGet, h, ih]

/-- C10: for the key-value configuration store, `get` after `set` returns the
value just stored and `has` is then true; after `unset`, `has` is false and
`get` returns no value; and `set` leaves the stored value of every other key
unchanged. -/
theorem C10_config_store {α : Type} (c : List (String × α)) (k k' : String)
    (v : α) (hne : k' ≠ k) :
    configGet (configSet c k v) k = some v ∧
    configHas (configSet c k v) k = true ∧
    configHas (configUnset c k) k = false ∧
    configGet (configUnset c k) k = none ∧
    configGet (configSet c k v) k' = configGet c k' := by
  refine ⟨configGet_configSet_self c k v, ?_, ?_,
    configGet_configUnset_self c k, configGet_configSet_other c k k' v hne⟩
  · simp [configHas, configGet_configSet_self]
  · simp [configHas, configGet_configUnset_self]

/-- Concrete instance of `C10_config_store` on a two-entry store. -/
theorem C10_config_store_witness :
    configGet (configSet [("token", "t1"), ("cloudron", "c1")] "apiEndpoint" "e") "apiEndpoint"
        = some "e" ∧
    configHas (configSet [("token", "t1"), ("cloudron", "c1")] "apiEndpoint" "e") "apiEndpoint"
        = true ∧
    configHas (configUnset [("token", "t1"), ("cloudron", "c1")] "apiEndpoint") "apiEndpoint"
        = false ∧
    configGet (configUnset [("token", "t1"), ("cloudron", "c1")] "apiEndpoint") "apiEndpoint"
        = none ∧
    configGet (configSet [("token", "t1"), ("cloudron", "c1")] "apiEndpoint" "e") "token"
        = configGet [("token", "t1"), ("cloudron", "c1")] "token" :=
  C10_config_store [("token", "t1"), ("cloudron", "c1")] "apiEndpoint" "token" "e"
    (by decide)

/-! ## C3: outbound framing in non-TTY exec (`exec`, actions.js 1000-1013)

In non-TTY mode the `exec` transport installs two local-stdin handlers:
on `'data'` it writes a 4-byte big-endian length prefix followed by the chunk,
and on `'end'` it writes a single zero-length frame; neither handler closes
the socket. -/

/-- The socket as seen by the outbound side: the bytes written so far, and
whether any handler has closed it. -/
structure OutSocket where
  written : List Nat
  closed : Bool
  deriving DecidableEq

/-- An event delivered by the local stdin stream. -/
inductive StdinEvent where
  | dataChunk (d : List Nat)
  | eof
  deriving DecidableEq

/-- The `'data'` and `'end'` handlers of non-TTY `exec`: `'data'` writes
`writeUInt32BE(d.length)` then `d`; `'end'` writes `writeUInt32BE(0)`.
No branch closes the socket. -/
def execOutboundStep (s : OutSocket) : StdinEvent → OutSocket
  | .dataChunk d => { s with written := s.written ++ (beBytes4 d.length ++ d) }
  | .eof => { s with written := s.written ++ beBytes4 0 }

/-- Deliver a sequence of stdin data chunks followed by end-of-stream to a
fresh open socket. -/
def execOutboundRun (chunks : List (List Nat)) : OutSocket :=
  (chunks.map StdinEvent.dataChunk ++ [StdinEvent.eof]).foldl execOutboundStep
    ⟨[], false⟩

theorem execOutboundStep_foldl_data (chunks : List (List Nat)) :
    ∀ s : OutSocket,
      (chunks.map StdinEvent.dataChunk).foldl execOutboundStep s =
        { s with written :=
            s.written ++ (chunks.map (fun d => beBytes4 d.length ++ d)).flatten } := by
  induction chunks with
  | nil => intro s; simp
  | cons d rest ih =>
    intro s
    simp [execOutboundStep, ih, List.append_assoc]

/-- C3: in non-TTY exec mode, for every sequence of local-stdin chunks the
client writes, per chunk in order, a 4-byte big-endian length prefix equal to
the chunk's byte length followed by the chunk bytes; on stdin end it writes
exactly one zero-length frame and does not close the socket. -/
theorem C3_outbound_framing (chunks : List (List Nat)) (d : List Nat)
    (hmem : d ∈ chunks) (hlen : d.length < 2 ^ 32) :
    (execOutboundRun chunks).written =
      (chunks.map (fun c => beBytes4 c.length ++ c)).flatten ++ beBytes4 0 ∧
    (execOutboundRun chunks).closed = false ∧
    (beBytes4 d.length).length = 4 ∧
    readUInt32BE (beBytes4 d.length ++ d) 0 = d.length ∧
    beBytes4 0 = [0, 0, 0, 0] := by
  refine ⟨?_, ?_, length_beBytes4 _, readUInt32BE_beBytes4 _ _ hlen, rfl⟩
  · simp [execOutboundRun, List.foldl_append, execOutboundStep_foldl_data,
      execOutboundStep]
  · simp [execOutboundRun, List.foldl_append, execOutboundStep_foldl_data,
      execOutboundStep]

/-- Concrete instance of `C3_outbound_framing`: two chunks followed by end of
stdin produce the two length-prefixed frames and the zero-length frame. -/
theorem C3_outbound_framing_witness :
    (execOutboundRun [[10, 11, 12], [13]]).written =
      ([[10, 11, 12], [13]].map (fun c => beBytes4 c.length ++ c)).flatten ++ beBytes4 0 ∧
    (execOutboundRun [[10, 11, 12], [13]]).closed = false ∧
    (beBytes4 ([10, 11, 12] : List Nat).length).length = 4 ∧
    readUInt32BE (beBytes4 ([10, 11, 12] : List Nat).length ++ [10, 11, 12]) 0 =
      ([10, 11, 12] : List Nat).length ∧
    beBytes4 0 = [0, 0, 0, 0] :=
  C3_outbound_framing [[10, 11, 12], [13]] [10, 11, 12] (by decide) (by decide)

/-! ## C4: mapping of a plain (non-upgrade) exec response (actions.js 978-986)

The response handler of the upgrade request runs only when the server answered
with a plain HTTP response.  Every branch calls `exit` (which terminates the
process), so the handler never retries: status 412 shows the developer-mode
notice, 403 the admin-required message, anything else a generic failure
message carrying the status code. -/

/-- Which terminal message the plain-response handler produces. -/
inductive UpgradeFailure where
  | developerModeNotice
  | adminRequired
  | genericFailure (status : Nat)
  deriving DecidableEq

/-- The `handler(res)` of the exec upgrade request: a chain of status tests in
which every branch terminates via `exit`. -/
def execUpgradeResponseHandler (status : Nat) : UpgradeFailure :=
  if status = 412 then .developerModeNotice
  else if status = 403 then .adminRequired
  else .genericFailure status

/-- The text printed by `showDeveloperModeNotice()` (actions.js 58-60),
parameterized by `config.apiEndpoint()`. -/
def showDeveloperModeNoticeMessage (apiEndpoint : String) : String :=
  "CLI mode is disabled. Enable it at https://" ++ apiEndpoint ++ "/#/settings."

/-- The user-facing message per status, `exit`'s arguments joined by a space
and rendered without terminal colors. -/
def execUpgradeMessage (apiEndpoint : String) (status : Nat) : String :=
  if status = 412 then showDeveloperModeNoticeMessage apiEndpoint
  else if status = 403 then "Only admins can use this feature."
  else "Could not upgrade connection to tcp. http status: " ++ toString status

/-- C4: a plain response to the exec upgrade request terminates without retry
with a message determined by the status code alone: 412 yields the
developer-mode notice, 403 the admin-required message, and every other status
a generic upgrade-failure message containing the status code. -/
theorem C4_upgrade_response_mapping (s : Nat) (ep : String) (h412 : s ≠ 412)
    (h403 : s ≠ 403) :
    execUpgradeResponseHandler 412 = .developerModeNotice ∧
    execUpgradeResponseHandler 403 = .adminRequired ∧
    execUpgradeResponseHandler s = .genericFailure s ∧
    execUpgradeMessage ep 412 = showDeveloperModeNoticeMessage ep ∧
    execUpgradeMessage ep 403 = "Only admins can use this feature." ∧
    execUpgradeMessage ep s =
      "Could not upgrade connection to tcp. http status: " ++ toString s := by
  refine ⟨rfl, rfl, ?_, rfl, rfl, ?_⟩
  · simp [execUpgradeResponseHandler, h412, h403]
  · simp [execUpgradeMessage, h412, h403]

/-- Concrete instance of `C4_upgrade_response_mapping` at status 500. -/
theorem C4_upgrade_response_mapping_witness :
    execUpgradeResponseHandler 412 = .developerModeNotice ∧
    execUpgradeResponseHandler 403 = .adminRequired ∧
    execUpgradeResponseHandler 500 = .genericFailure 500 ∧
    execUpgradeMessage "my.example.com" 412 =
      showDeveloperModeNoticeMessage "my.example.com" ∧
    execUpgradeMessage "my.example.com" 403 = "Only admins can use this feature." ∧
    execUpgradeMessage "my.example.com" 500 =
      "Could not upgrade connection to tcp. http status: " ++ toString 500 :=
  C4_upgrade_response_mapping 500 "my.example.com" (by decide) (by decide)

/-! ## C5: the TTY precondition of `exec` (actions.js 942-986)

`exec` first resolves the target app with `getApp` — which performs an
authenticated HTTP GET of the app resource (or of the app list) — and only
then, inside the callback, substitutes `['/bin/bash']` with forced TTY for an
empty command vector and checks `tty && !stdin.isTTY`, exiting with
`'stdin is not tty'` before the upgrade request is built.  The trace below
records these externally visible effects in program order; `exit` terminates
the process, so nothing follows a `fatalExit` event. -/

/-- Externally visible effects of an `exec` invocation, in program order. -/
inductive ExecEvent where
  | appLookupRequest
  | execUpgradeRequest
  | fatalExit (msg : String)
  deriving DecidableEq

/-- Whether an event is an HTTP request on the network. -/
def isNetworkRequest : ExecEvent → Bool
  | .appLookupRequest => true
  | .execUpgradeRequest => true
  | .fatalExit _ => false

/-- The effect trace of `exec(cmd, options)` up to issuing the upgrade
request, on the path where app resolution succeeds. -/
def execTrace (cmd : List String) (tty stdinIsTTY : Bool) : List ExecEvent :=
  ExecEvent.appLookupRequest ::
    (if (if cmd.isEmpty then true else tty) && !stdinIsTTY then
      [ExecEvent.fatalExit "stdin is not tty"]
    else [ExecEvent.execUpgradeRequest])

/-- C5 counterexample: invoking exec with `tty=true` and a non-interactive
stdin does fail with `'stdin is not tty'`, but only after the app-lookup
network request — the trace is not free of network requests, contradicting
the claim's "before any network request is attempted". -/
theorem C5_counterexample :
    ExecEvent.fatalExit "stdin is not tty" ∈ execTrace ["ls"] true false ∧
    (execTrace ["ls"] true false).head? = some ExecEvent.appLookupRequest ∧
    ¬(∀ e ∈ execTrace ["ls"] true false, isNetworkRequest e = false) := by
  decide

/-- C5 amended: with `tty=true` (or an empty command vector, which forces TTY
mode) and a non-interactive stdin, `exec` fails with `'stdin is not tty'`
immediately after app resolution: the exec upgrade request is never issued and
no socket is opened, though the app-resolution GET does precede the check. -/
theorem C5_amended (cmd : List String) (tty stdinIsTTY : Bool)
    (h : tty = true ∨ cmd = []) (hstdin : stdinIsTTY = false) :
    execTrace cmd tty stdinIsTTY =
      [ExecEvent.appLookupRequest, ExecEvent.fatalExit "stdin is not tty"] ∧
    ExecEvent.execUpgradeRequest ∉ execTrace cmd tty stdinIsTTY := by
  subst hstdin
  rcases h with h | h
  · subst h
    cases cmd with
    | nil => exact ⟨rfl, by decide⟩
    | cons a l => exact ⟨rfl, by simp [execTrace, List.isEmpty]⟩
  · subst h
    have htr : execTrace [] tty false =
        [ExecEvent.appLookupRequest, ExecEvent.fatalExit "stdin is not tty"] := rfl
    exact ⟨htr, by rw [htr]; decide⟩

/-- Concrete instance of `C5_amended` with a nonempty command and `tty=true`. -/
theorem C5_amended_witness :
    execTrace ["ls"] true false =
      [ExecEvent.appLookupRequest, ExecEvent.fatalExit "stdin is not tty"] ∧
    ExecEvent.execUpgradeRequest ∉ execTrace ["ls"] true false :=
  C5_amended ["ls"] true false (Or.inl rfl) rfl

/-! ## The polling loops (C2, C6)

Each poll issues one authenticated GET through `helper.superagentEnd` and then
runs the visible callback logic.  A transport error that yields no HTTP
response at all is `none`; a received response carries its status code, its
body text and its parsed body. -/

/-- An HTTP response as seen by a poll callback. -/
structure HttpReply (β : Type) where
  statusCode : Nat
  text : String
  body : β
  deriving DecidableEq

/-- The app resource body consumed by the installation/health/uninstall
waiters (`installationState`, `installationProgress`, `health`). -/
structure AppResponseBody where
  installationState : String
  installationProgress : Option String
  health : Option String
  deriving DecidableEq

/-- The box progress body consumed by `waitForBackupCompletion`
(`backup.percent`, `backup.message`). -/
structure BackupProgressBody where
  percent : Int
  message : Option String
  deriving DecidableEq

/-- What a single poll callback decides to do. -/
inductive PollAction where
  | fatalTransport
  | failWith (msg : String)
  | completed
  | healthWait
  | operationFailed (msg : Option String)
  | keepPolling
  deriving DecidableEq

/-- One poll of `waitForFinishInstallation` (actions.js 336-369):
transport error → propagate fatally; non-200 → fail with code and body text;
`installed` → done (chaining into the health wait when requested);
`error` → fail with the embedded `installationProgress`; else poll again. -/
def installLoopPoll (waitForHealthcheck : Bool)
    (r : Option (HttpReply AppResponseBody)) : PollAction :=
  match r with
  | none => .fatalTransport
  | some res =>
    if res.statusCode ≠ 200 then
      .failWith ("Failed to get app. " ++ toString res.statusCode ++ " " ++ res.text)
    else if res.body.installationState = "installed" then
      (if waitForHealthcheck then .healthWait else .completed)
    else if res.body.installationState = "error" then
      .operationFailed res.body.installationProgress
    else .keepPolling

/-- One poll of `waitForHealthy` (actions.js 314-328): transport error →
propagate; non-200 → fail with code and body text; `health === 'healthy'` →
done; else poll again (installation state is deliberately not checked). -/
def healthLoopPoll (r : Option (HttpReply AppResponseBody)) : PollAction :=
  match r with
  | none => .fatalTransport
  | some res =>
    if res.statusCode ≠ 200 then
      .failWith ("Failed to get app. " ++ toString res.statusCode ++ " " ++ res.text)
    else if res.body.health = some "healthy" then .completed
    else .keepPolling

/-- One poll of `waitForBackupCompletion` (actions.js 380-396): transport
error → propagate; non-200 → fail with code and body text; `percent >= 100` →
report `backup.message` as failure when it is a truthy string, else success;
otherwise poll again (a message with `percent < 100` does not stop polling). -/
def backupLoopPoll (r : Option (HttpReply BackupProgressBody)) : PollAction :=
  match r with
  | none => .fatalTransport
  | some res =>
    if res.statusCode ≠ 200 then
      .failWith ("Failed to get backup progress. " ++ toString res.statusCode
        ++ " " ++ res.text)
    else if 100 ≤ res.body.percent then
      (match res.body.message with
       | some s => if s ≠ "" then .failWith ("Backup failed: " ++ s) else .completed
       | none => .completed)
    else .keepPolling

/-- One poll of the `waitForFinish` loop of `uninstall` (actions.js 634-645):
transport error → exit fatally; 404 → uninstalled, done; any other status —
success or error alike — prints a tick and polls again. -/
def uninstallLoopPoll (r : Option (HttpReply AppResponseBody)) : PollAction :=
  match r with
  | none => .fatalTransport
  | some res => if res.statusCode = 404 then .completed else .keepPolling

/-- Whether a poll action stops the loop with an error. -/
def stopsWithError : PollAction → Bool
  | .fatalTransport => true
  | .failWith _ => true
  | .operationFailed _ => true
  | _ => false

/-- C2 counterexample: a backup progress body carrying a message but with
`percent < 100` does not stop polling — the failure message is inspected only
inside the `percent >= 100` branch, so the failure predicate is not checked
before (or independently of) the completion predicate. -/
theorem C2_counterexample :
    backupLoopPoll (some ⟨200, "", ⟨50, some "boom"⟩⟩) = PollAction.keepPolling ∧
    backupLoopPoll (some ⟨200, "", ⟨50, some "boom"⟩⟩) ≠
      PollAction.failWith "Backup failed: boom" := by
  decide

/-- C2 amended: for the backup poller the completion check gates the failure
check — when `percent >= 100` a truthy `backup.message` takes precedence over
success and stops polling with that message, but when `percent < 100` polling
continues even if a message is present; for the installation poller an
`installationState` of `'error'` stops polling with the embedded
`installationProgress` as the error. -/
theorem C2_amended (wfh : Bool) (t t' t'' : String) (percent p : Int)
    (msg : String) (m : Option String) (b : AppResponseBody)
    (hp : 100 ≤ percent) (hmsg : msg ≠ "") (hplt : p < 100)
    (hb : b.installationState = "error") :
    backupLoopPoll (some ⟨200, t, ⟨percent, some msg⟩⟩) =
      PollAction.failWith ("Backup failed: " ++ msg) ∧
    backupLoopPoll (some ⟨200, t', ⟨p, m⟩⟩) = PollAction.keepPolling ∧
    installLoopPoll wfh (some ⟨200, t'', b⟩) =
      PollAction.operationFailed b.installationProgress := by
  refine ⟨?_, ?_, ?_⟩
  · simp [backupLoopPoll, hp, hmsg]
  · simp [backupLoopPoll, Int.not_le.mpr hplt]
  · simp [installLoopPoll, hb]

/-- Concrete instance of `C2_amended`. -/
theorem C2_amended_witness :
    backupLoopPoll (some ⟨200, "", ⟨100, some "oops"⟩⟩) =
      PollAction.failWith ("Backup failed: " ++ "oops") ∧
    backupLoopPoll (some ⟨200, "", ⟨99, some "oops"⟩⟩) = PollAction.keepPolling ∧
    installLoopPoll true (some ⟨200, "", ⟨"error", some "b,Creating container", none⟩⟩) =
      PollAction.operationFailed
        (⟨"error", some "b,Creating container", none⟩ : AppResponseBody).installationProgress :=
  C2_amended true "" "" "" 100 99 "oops" (some "oops")
    ⟨"error", some "b,Creating container", none⟩
    (by decide) (by decide) (by decide) rfl

/-- C6 counterexample: the uninstall waiter keeps polling on a non-success
HTTP status (here 500) instead of stopping with a descriptive error — only
404 terminates it. -/
theorem C6_counterexample :
    uninstallLoopPoll (some ⟨500, "boom", ⟨"pending_uninstall", none, none⟩⟩) =
      PollAction.keepPolling ∧
    stopsWithError
      (uninstallLoopPoll (some ⟨500, "boom", ⟨"pending_uninstall", none, none⟩⟩)) =
      false := by
  decide

/-- C6 amended: in every polling loop a transport error with no HTTP response
stops polling immediately and propagates fatally with no retry; a non-success
status stops the installation, health and backup pollers immediately with an
error carrying the status code and the body text; the uninstall waiter instead
treats 404 as completion and keeps polling on every other status. -/
theorem C6_amended (wfh : Bool) (ra rh : HttpReply AppResponseBody)
    (rb : HttpReply BackupProgressBody) (ru rd : HttpReply AppResponseBody)
    (ha : ra.statusCode ≠ 200) (hh : rh.statusCode ≠ 200)
    (hb : rb.statusCode ≠ 200) (hu : ru.statusCode ≠ 404)
    (hd : rd.statusCode = 404) :
    installLoopPoll wfh none = PollAction.fatalTransport ∧
    healthLoopPoll none = PollAction.fatalTransport ∧
    backupLoopPoll none = PollAction.fatalTransport ∧
    uninstallLoopPoll none = PollAction.fatalTransport ∧
    installLoopPoll wfh (some ra) =
      PollAction.failWith
        ("Failed to get app. " ++ toString ra.statusCode ++ " " ++ ra.text) ∧
    healthLoopPoll (some rh) =
      PollAction.failWith
        ("Failed to get app. " ++ toString rh.statusCode ++ " " ++ rh.text) ∧
    backupLoopPoll (some rb) =
      PollAction.failWith
        ("Failed to get backup progress. " ++ toString rb.statusCode ++ " " ++ rb.text) ∧
    uninstallLoopPoll (some ru) = PollAction.keepPolling ∧
    uninstallLoopPoll (some rd) = PollAction.completed := by
  refine ⟨rfl, rfl, rfl, rfl, ?_, ?_, ?_, ?_, ?_⟩
  · simp [installLoopPoll, ha]
  · simp [healthLoopPoll, hh]
  · simp [backupLoopPoll, hb]
  · simp [uninstallLoopPoll, hu]
  · simp [uninstallLoopPoll, hd]

/-- Concrete instance of `C6_amended` at status 500 (and 404 for the
uninstall completion branch). -/
theorem C6_amended_witness :
    installLoopPoll true none = PollAction.fatalTransport ∧
    healthLoopPoll none = PollAction.fatalTransport ∧
    backupLoopPoll none = PollAction.fatalTransport ∧
    uninstallLoopPoll none = PollAction.fatalTransport ∧
    installLoopPoll true (some ⟨500, "ise", ⟨"pending_install", none, none⟩⟩) =
      PollAction.failWith ("Failed to get app. " ++ toString 500 ++ " " ++ "ise") ∧
    healthLoopPoll (some ⟨502, "bad", ⟨"installed", none, none⟩⟩) =
      PollAction.failWith ("Failed to get app. " ++ toString 502 ++ " " ++ "bad") ∧
    backupLoopPoll (some ⟨503, "busy", ⟨100, none⟩⟩) =
      PollAction.failWith ("Failed to get backup progress. " ++ toString 503 ++ " " ++ "busy") ∧
    uninstallLoopPoll (some ⟨500, "boom", ⟨"pending_uninstall", none, none⟩⟩) =
      PollAction.keepPolling ∧
    uninstallLoopPoll (some ⟨404, "gone", ⟨"pending_uninstall", none, none⟩⟩) =
      PollAction.completed :=
  C6_amended true ⟨500, "ise", ⟨"pending_install", none, none⟩⟩
    ⟨502, "bad", ⟨"installed", none, none⟩⟩ ⟨503, "busy", ⟨100, none⟩⟩
    ⟨500, "boom", ⟨"pending_uninstall", none, none⟩⟩
    ⟨404, "gone", ⟨"pending_uninstall", none, none⟩⟩
    (by decide) (by decide) (by decide) (by decide) (by decide)

/-! ## The inbound demultiplexer (C1, C8): `demuxStream` (actions.js 917-934)

`demuxStream` keeps one piece of state across `'readable'` events: the header
buffered by the last incomplete iteration.  On each event it re-reads
`header = header || stream.read(8)` and then loops: read the payload of
`header.readUInt32BE(4)` bytes — `stream.read(n)` yields `null` when `n = 0`
or fewer than `n` bytes are buffered, leaving the buffer untouched — breaking
(and keeping the header) when the payload is unavailable, otherwise writing
the payload to stderr when the type byte is 2 and to stdout otherwise and
reading the next 8-byte header.

`demuxLoop fuel hdr buf` runs the `while (header !== null)` loop from a
just-read header `hdr` with `buf` the stream's internal buffer; the fuel only
needs to exceed `buf.length` because every iteration consumes at least nine
bytes. -/

/-- The result of running the handler: the `(typeByte, payload)` frames
emitted in order, the buffered header (if the loop broke on an incomplete
payload) and the bytes left in the stream's internal buffer. -/
structure DemuxRun where
  emitted : List (Nat × List Nat)
  header : Option (List Nat)
  buffer : List Nat
  deriving DecidableEq

/-- Prefix one emitted frame onto a run's output. -/
def consRun (em : Nat × List Nat) (r : DemuxRun) : DemuxRun :=
  ⟨em :: r.emitted, r.header, r.buffer⟩

/-- The `while (header !== null)` loop of `demuxStream`, from a header that
has just been read. -/
def demuxLoop : Nat → List Nat → List Nat → DemuxRun
  | 0, hdr, buf => ⟨[], some hdr, buf⟩
  | fuel + 1, hdr, buf =>
    if 0 < readUInt32BE hdr 4 ∧ readUInt32BE hdr 4 ≤ buf.length then
      if 8 ≤ (buf.drop (readUInt32BE hdr 4)).length then
        consRun (hdr.getD 0 0, buf.take (readUInt32BE hdr 4))
          (demuxLoop fuel ((buf.drop (readUInt32BE hdr 4)).take 8)
            ((buf.drop (readUInt32BE hdr 4)).drop 8))
      else
        ⟨[(hdr.getD 0 0, buf.take (readUInt32BE hdr 4))], none,
          buf.drop (readUInt32BE hdr 4)⟩
    else ⟨[], some hdr, buf⟩

/-- One `'readable'` event: `header = header || stream.read(8)` followed by
the loop. -/
def demuxHandler : Option (List Nat) → List Nat → DemuxRun
  | some hdr, buf => demuxLoop (buf.length + 1) hdr buf
  | none, buf =>
    if 8 ≤ buf.length then demuxLoop (buf.length + 1) (buf.take 8) (buf.drop 8)
    else ⟨[], none, buf⟩

/-- The initial demultiplexer state: no buffered header, empty stream buffer,
nothing emitted. -/
def initDemux : DemuxRun := ⟨[], none, []⟩

/-- Deliver one chunk to the stream and run the `'readable'` handler. -/
def feedChunk (st : DemuxRun) (chunk : List Nat) : DemuxRun :=
  ⟨st.emitted ++ (demuxHandler st.header (st.buffer ++ chunk)).emitted,
   (demuxHandler st.header (st.buffer ++ chunk)).header,
   (demuxHandler st.header (st.buffer ++ chunk)).buffer⟩

/-- Deliver a sequence of chunks, one `'readable'` event per chunk. -/
def feedChunks (chunks : List (List Nat)) : DemuxRun :=
  chunks.foldl feedChunk initDemux

/-- Route the emitted frames the way the loop body writes them: type byte 2
to the local stderr stream, every other type to the local stdout stream. -/
def routeEmission (out : List Nat × List Nat) (em : Nat × List Nat) :
    List Nat × List Nat :=
  if em.1 = 2 then (out.1, out.2 ++ em.2) else (out.1 ++ em.2, out.2)

/-- The accumulated (stdout, stderr) byte streams of a run. -/
def routeAll (ems : List (Nat × List Nat)) : List Nat × List Nat :=
  ems.foldl routeEmission ([], [])

/-- A well-formed inbound frame: type byte, three reserved bytes, payload. -/
structure Frame where
  ftype : Nat
  r1 : Nat
  r2 : Nat
  r3 : Nat
  payload : List Nat
  deriving DecidableEq

/-- The wire encoding of a frame: 8-byte header (type byte at offset 0, the
payload length big-endian at offset 4) followed by the payload. -/
def encodeFrame (f : Frame) : List Nat :=
  f.ftype :: f.r1 :: f.r2 :: f.r3 :: (beBytes4 f.payload.length ++ f.payload)

/-- The wire encoding of a sequence of frames. -/
def encodeFrames (fs : List Frame) : List Nat :=
  (fs.map encodeFrame).flatten

/-- The frames a correct demultiplexer emits for `fs`. -/
def frameEmissions (fs : List Frame) : List (Nat × List Nat) :=
  fs.map (fun f => (f.ftype, f.payload))

theorem length_encodeFrame (f : Frame) :
    (encodeFrame f).length = 8 + f.payload.length := by
  simp [encodeFrame, beBytes4]
  omega

theorem demuxLoop_fuel : ∀ f₁ f₂ hdr buf, buf.length < f₁ → buf.length < f₂ →
    demuxLoop f₁ hdr buf = demuxLoop f₂ hdr buf := by
  intro f₁
  induction f₁ with
  | zero => intro f₂ hdr buf h1 _; exact absurd h1 (Nat.not_lt_zero _)
  | succ g ih =>
    intro f₂ hdr buf h1 h2
    cases f₂ with
    | zero => exact absurd h2 (Nat.not_lt_zero _)
    | succ g₂ =>
      by_cases hc : 0 < readUInt32BE hdr 4 ∧ readUInt32BE hdr 4 ≤ buf.length
      · obtain ⟨hpos, hle⟩ := hc
        by_cases h8 : 8 ≤ (buf.drop (readUInt32BE hdr 4)).length
        · simp only [demuxLoop, if_pos (And.intro hpos hle), if_pos h8]
          have h8' := h8
          simp only [List.length_drop] at h8'
          rw [ih g₂ _ _ ?_ ?_] <;>
            simp only [List.length_drop] <;> omega
        · simp only [demuxLoop, if_pos (And.intro hpos hle), if_neg h8]
      · simp only [demuxLoop, if_neg hc]

theorem feedChunk_consRun (em : Nat × List Nat) (r : DemuxRun) (c : List Nat) :
    feedChunk (consRun em r) c = consRun em (feedChunk r c) := by
  simp [feedChunk, consRun]

theorem demuxLoop_append : ∀ f₁ f₂ (hdr buf c : List Nat), buf.length < f₁ →
    buf.length + c.length < f₂ →
    demuxLoop f₂ hdr (buf ++ c) = feedChunk (demuxLoop f₁ hdr buf) c := by
  intro f₁
  induction f₁ with
  | zero => intro f₂ hdr buf c h1 _; exact absurd h1 (Nat.not_lt_zero _)
  | succ g ih =>
    intro f₂ hdr buf c h1 h2
    cases f₂ with
    | zero => exact absurd h2 (Nat.not_lt_zero _)
    | succ g₂ =>
      by_cases hc : 0 < readUInt32BE hdr 4 ∧ readUInt32BE hdr 4 ≤ buf.length
      · obtain ⟨hpos, hle⟩ := hc
        have hc' : 0 < readUInt32BE hdr 4 ∧ readUInt32BE hdr 4 ≤ (buf ++ c).length := by
          refine ⟨hpos, ?_⟩
          simp only [List.length_append]
          omega
        have htake : (buf ++ c).take (readUInt32BE hdr 4) = buf.take (readUInt32BE hdr 4) :=
          List.take_append_of_le_length hle
        have hdrop : (buf ++ c).drop (readUInt32BE hdr 4) =
            buf.drop (readUInt32BE hdr 4) ++ c :=
          List.drop_append_of_le_length hle
        by_cases h8 : 8 ≤ (buf.drop (readUInt32BE hdr 4)).length
        · have h8' : 8 ≤ ((buf ++ c).drop (readUInt32BE hdr 4)).length := by
            rw [hdrop]
            simp only [List.length_append]
            omega
          have htake8 : ((buf ++ c).drop (readUInt32BE hdr 4)).take 8 =
              (buf.drop (readUInt32BE hdr 4)).take 8 := by
            rw [hdrop]; exact List.take_append_of_le_length h8
          have hdrop8 : ((buf ++ c).drop (readUInt32BE hdr 4)).drop 8 =
              (buf.drop (readUInt32BE hdr 4)).drop 8 ++ c := by
            rw [hdrop]; exact List.drop_append_of_le_length h8
          simp only [demuxLoop, if_pos (And.intro hpos hle), if_pos hc', if_pos h8,
            if_pos h8', htake, htake8, hdrop8]
          rw [feedChunk_consRun]
          refine congrArg (consRun _) (ih g₂ _ _ c ?_ ?_)
          · simp only [List.length_drop] at h8 ⊢
            omega
          · simp only [List.length_drop] at h8 ⊢
            omega
        · by_cases h8c : 8 ≤ ((buf ++ c).drop (readUInt32BE hdr 4)).length
          · simp only [demuxLoop, if_pos (And.intro hpos hle), if_pos hc', if_neg h8,
              if_pos h8c, htake, feedChunk, demuxHandler, hdrop,
              if_pos (show 8 ≤ (buf.drop (readUInt32BE hdr 4) ++ c).length by
                rw [← hdrop]; exact h8c)]
            rw [demuxLoop_fuel g₂ ((buf.drop (readUInt32BE hdr 4) ++ c).length + 1) _ _ ?_ ?_]
            · rfl
            · simp only [List.length_drop, List.length_append] at h8c ⊢
              omega
            · simp only [List.length_drop]
              omega
          · have h8c' : ¬8 ≤ (buf.drop (readUInt32BE hdr 4) ++ c).length := by
              rw [← hdrop]; exact h8c
            simp only [demuxLoop, if_pos (And.intro hpos hle), if_pos hc', if_neg h8,
              if_neg h8c, htake, hdrop, feedChunk, demuxHandler, if_neg h8c',
              List.append_nil]
      · have hL : demuxLoop (g + 1) hdr buf = ⟨[], some hdr, buf⟩ := by
          simp only [demuxLoop, if_neg hc]
        rw [hL]
        simp only [feedChunk, demuxHandler, List.nil_append]
        rw [demuxLoop_fuel (g₂ + 1) ((buf ++ c).length + 1) hdr (buf ++ c) ?_ ?_]
        · simp only [List.length_append]
          omega
        · exact Nat.lt_succ_self _

theorem demuxHandler_append (h : Option (List Nat)) (buf c : List Nat) :
    demuxHandler h (buf ++ c) = feedChunk (demuxHandler h buf) c := by
  cases h with
  | some hdr =>
    simp only [demuxHandler]
    rw [demuxLoop_append (buf.length + 1) ((buf ++ c).length + 1) hdr buf c
      (Nat.lt_succ_self _) (by simp only [List.length_append]; omega)]
  | none =>
    by_cases h8 : 8 ≤ buf.length
    · have h8' : 8 ≤ (buf ++ c).length := by
        simp only [List.length_append]; omega
      have htake : (buf ++ c).take 8 = buf.take 8 := List.take_append_of_le_length h8
      have hdrop : (buf ++ c).drop 8 = buf.drop 8 ++ c := List.drop_append_of_le_length h8
      simp only [demuxHandler, if_pos h8, if_pos h8', htake, hdrop]
      rw [demuxLoop_append (buf.length + 1) ((buf ++ c).length + 1) (buf.take 8)
        (buf.drop 8) c (by simp only [List.length_drop]; omega)
        (by simp only [List.length_drop, List.length_append]; omega)]
    · have hL : demuxHandler none buf = ⟨[], none, buf⟩ := by
        simp only [demuxHandler, if_neg h8]
      rw [hL]
      simp only [feedChunk, List.nil_append]

theorem feedChunk_append (st : DemuxRun) (a b : List Nat) :
    feedChunk st (a ++ b) = feedChunk (feedChunk st a) b := by
  have h : st.buffer ++ (a ++ b) = st.buffer ++ a ++ b :=
    (List.append_assoc _ _ _).symm
  simp only [feedChunk, h, demuxHandler_append st.header (st.buffer ++ a) b]
  simp only [List.append_assoc]

theorem feedChunks_eq_whole (chunks : List (List Nat)) :
    feedChunks chunks = feedChunk initDemux chunks.flatten := by
  induction chunks using List.reverseRecOn with
  | nil => rfl
  | append_singleton cs c ih =>
    rw [feedChunks, List.foldl_append]
    simp only [List.foldl_cons, List.foldl_nil]
    rw [← feedChunks, ih, ← feedChunk_append, List.flatten_append,
      List.flatten_cons, List.flatten_nil, List.append_nil]

theorem readUInt32BE_header' (t r1 r2 r3 n : Nat) (h : n < 2 ^ 32) :
    readUInt32BE (t :: r1 :: r2 :: r3 :: beBytes4 n) 4 = n := by
  have := readUInt32BE_header t r1 r2 r3 n [] h
  simpa using this

theorem demuxHandler_encodeFrame (f : Frame) (hpos : 0 < f.payload.length)
    (hlen : f.payload.length < 2 ^ 32) :
    demuxHandler none (encodeFrame f) = ⟨[(f.ftype, f.payload)], none, []⟩ := by
  have hsplit : encodeFrame f =
      (f.ftype :: f.r1 :: f.r2 :: f.r3 :: beBytes4 f.payload.length) ++ f.payload := by
    simp [encodeFrame]
  have hhl : (f.ftype :: f.r1 :: f.r2 :: f.r3 :: beBytes4 f.payload.length).length = 8 := by
    simp [beBytes4]
  have h8 : 8 ≤ (encodeFrame f).length := by
    rw [length_encodeFrame]; omega
  have htake : (encodeFrame f).take 8 =
      f.ftype :: f.r1 :: f.r2 :: f.r3 :: beBytes4 f.payload.length := by
    rw [hsplit]; exact List.take_left' hhl
  have hdrop : (encodeFrame f).drop 8 = f.payload := by
    rw [hsplit]; exact List.drop_left' hhl
  have hread : readUInt32BE ((encodeFrame f).take 8) 4 = f.payload.length := by
    rw [htake]; exact readUInt32BE_header' _ _ _ _ _ hlen
  simp only [demuxHandler, if_pos h8, hdrop]
  have hfuel : (encodeFrame f).length = 8 + f.payload.length := length_encodeFrame f
  rw [hfuel]
  have hunfold : demuxLoop (8 + f.payload.length + 1) ((encodeFrame f).take 8) f.payload =
      demuxLoop (f.payload.length + 1) ((encodeFrame f).take 8) f.payload :=
    demuxLoop_fuel _ _ _ _ (by omega) (by omega)
  rw [hunfold]
  simp only [demuxLoop, hread, if_pos (And.intro hpos (Nat.le_refl _)),
    List.take_length, List.drop_length, List.length_nil]
  rw [if_neg (by omega), htake]
  rfl

theorem encodeFrames_cons (f : Frame) (fs : List Frame) :
    encodeFrames (f :: fs) = encodeFrame f ++ encodeFrames fs := by
  simp [encodeFrames]

theorem demuxHandler_encodeFrames (fs : List Frame)
    (hpos : ∀ f ∈ fs, 0 < f.payload.length)
    (hlen : ∀ f ∈ fs, f.payload.length < 2 ^ 32) :
    demuxHandler none (encodeFrames fs) = ⟨frameEmissions fs, none, []⟩ := by
  induction fs with
  | nil => rfl
  | cons f fs ih =>
    have ihr := ih (fun x hx => hpos x (List.mem_cons_of_mem f hx))
      (fun x hx => hlen x (List.mem_cons_of_mem f hx))
    rw [encodeFrames_cons, demuxHandler_append none (encodeFrame f) (encodeFrames fs),
      demuxHandler_encodeFrame f (hpos f (List.mem_cons_self f fs))
        (hlen f (List.mem_cons_self f fs))]
    simp [feedChunk, ihr, frameEmissions]

theorem routeEmission_foldl (ems : List (Nat × List Nat)) :
    ∀ acc : List Nat × List Nat,
      ems.foldl routeEmission acc =
        (acc.1 ++ ((ems.filter (fun e => !(e.1 == 2))).map Prod.snd).flatten,
         acc.2 ++ ((ems.filter (fun e => e.1 == 2)).map Prod.snd).flatten) := by
  induction ems with
  | nil => intro acc; simp
  | cons e rest ih =>
    intro acc
    by_cases he : e.1 = 2
    · simp [routeEmission, List.filter_cons, he, ih, List.append_assoc]
    · simp [routeEmission, List.filter_cons, he, ih, List.append_assoc]

theorem routeAll_frameEmissions (fs : List Frame) :
    routeAll (frameEmissions fs) =
      (((fs.filter (fun f => !(f.ftype == 2))).map Frame.payload).flatten,
       ((fs.filter (fun f => f.ftype == 2)).map Frame.payload).flatten) := by
  rw [routeAll, routeEmission_foldl]
  have hmap : ∀ p : Nat → Bool,
      ((frameEmissions fs).filter (fun e => p e.1)).map Prod.snd =
        (fs.filter (fun f => p f.ftype)).map Frame.payload := by
    intro p
    induction fs with
    | nil => rfl
    | cons f fs ih =>
      simp only [frameEmissions, List.map_cons, List.filter_cons] at *
      cases hp : p f.ftype <;> simp [hp, ih]
  simp only [List.nil_append]
  rw [hmap (fun t => !(t == 2)), hmap (fun t => t == 2)]

/-- C1 counterexample: a well-formed frame with declared payload length zero
followed by a stdout frame carrying byte 65.  `stream.read(0)` returns `null`,
so the decoder stalls on the zero-length header and never routes the later
frame's payload: the demultiplexed stdout stream is empty where the claim
requires `[65]`. -/
theorem C1_counterexample :
    (routeAll (feedChunks
        [encodeFrames [⟨0, 0, 0, 0, []⟩, ⟨1, 0, 0, 0, [65]⟩]]).emitted).1 = [] ∧
    ((([⟨0, 0, 0, 0, []⟩, ⟨1, 0, 0, 0, [65]⟩] : List Frame).filter
        (fun f => !(f.ftype == 2))).map Frame.payload).flatten = [65] ∧
    ([] : List Nat) ≠ [65] := by
  decide

/-- C1 amended: for every inbound non-TTY byte stream that is a concatenation
of well-formed frames whose payload lengths are positive (a zero-length frame
is an end-of-decoding marker, not a data frame — see C8), the demultiplexer
emits every frame in order, routing type-2 payloads to local stderr and all
other types to local stdout; and for every way of splitting the byte stream
into successive chunks, the result is identical to feeding the stream
whole. -/
theorem C1_demux_routing (fs : List Frame) (chunks : List (List Nat))
    (hpos : ∀ f ∈ fs, 0 < f.payload.length)
    (hlen : ∀ f ∈ fs, f.payload.length < 2 ^ 32)
    (hsplit : chunks.flatten = encodeFrames fs) :
    feedChunks chunks = ⟨frameEmissions fs, none, []⟩ ∧
    routeAll (feedChunks chunks).emitted =
      (((fs.filter (fun f => !(f.ftype == 2))).map Frame.payload).flatten,
       ((fs.filter (fun f => f.ftype == 2)).map Frame.payload).flatten) ∧
    feedChunks chunks = feedChunks [encodeFrames fs] := by
  have hwhole : feedChunks chunks = feedChunk initDemux (encodeFrames fs) := by
    rw [feedChunks_eq_whole, hsplit]
  have hdec : feedChunk initDemux (encodeFrames fs) = ⟨frameEmissions fs, none, []⟩ := by
    simp [feedChunk, initDemux, demuxHandler_encodeFrames fs hpos hlen]
  have hsingle : feedChunks [encodeFrames fs] = feedChunk initDemux (encodeFrames fs) := by
    rw [feedChunks_eq_whole]
    simp
  refine ⟨hwhole.trans hdec, ?_, hwhole.trans hsingle.symm⟩
  rw [hwhole.trans hdec]
  exact routeAll_frameEmissions fs

/-- Concrete instance of `C1_demux_routing`: a stdout frame and a stderr
frame, delivered in chunks that split both headers and payloads. -/
theorem C1_demux_routing_witness :
    feedChunks [[1, 0, 0], [0, 0, 0, 0, 2, 10], [11, 2, 0, 0, 0], [0, 0, 0, 1, 20]] =
      ⟨frameEmissions [⟨1, 0, 0, 0, [10, 11]⟩, ⟨2, 0, 0, 0, [20]⟩], none, []⟩ ∧
    routeAll (feedChunks
        [[1, 0, 0], [0, 0, 0, 0, 2, 10], [11, 2, 0, 0, 0], [0, 0, 0, 1, 20]]).emitted =
      (((([⟨1, 0, 0, 0, [10, 11]⟩, ⟨2, 0, 0, 0, [20]⟩] : List Frame).filter
          (fun f => !(f.ftype == 2))).map Frame.payload).flatten,
       ((([⟨1, 0, 0, 0, [10, 11]⟩, ⟨2, 0, 0, 0, [20]⟩] : List Frame).filter
          (fun f => f.ftype == 2)).map Frame.payload).flatten) ∧
    feedChunks [[1, 0, 0], [0, 0, 0, 0, 2, 10], [11, 2, 0, 0, 0], [0, 0, 0, 1, 20]] =
      feedChunks [encodeFrames [⟨1, 0, 0, 0, [10, 11]⟩, ⟨2, 0, 0, 0, [20]⟩]] :=
  C1_demux_routing [⟨1, 0, 0, 0, [10, 11]⟩, ⟨2, 0, 0, 0, [20]⟩]
    [[1, 0, 0], [0, 0, 0, 0, 2, 10], [11, 2, 0, 0, 0], [0, 0, 0, 1, 20]]
    (by decide) (by decide) (by decide)

theorem feedChunk_stuck_zero (E : List (Nat × List Nat)) (zhdr b c : List Nat)
    (hz0 : readUInt32BE zhdr 4 = 0) :
    feedChunk ⟨E, some zhdr, b⟩ c = ⟨E, some zhdr, b ++ c⟩ := by
  simp [feedChunk, demuxHandler, demuxLoop, hz0]

theorem foldl_feedChunk_stuck_zero (more : List (List Nat))
    (E : List (Nat × List Nat)) (zhdr : List Nat)
    (hz0 : readUInt32BE zhdr 4 = 0) :
    ∀ b : List Nat,
      more.foldl feedChunk ⟨E, some zhdr, b⟩ = ⟨E, some zhdr, b ++ more.flatten⟩ := by
  induction more with
  | nil => intro b; simp
  | cons c more ih =>
    intro b
    simp only [List.foldl_cons, feedChunk_stuck_zero E zhdr b c hz0, ih,
      List.flatten_cons, List.append_assoc]

/-- C8: when the decoder meets a frame whose declared payload length is zero,
decoding terminates — whatever bytes or further chunks follow, nothing more is
emitted, and no payload bytes are written to local stdout or stderr for the
zero-length frame. -/
theorem C8_zero_length_frame (fs : List Frame) (zhdr rest : List Nat)
    (more : List (List Nat))
    (hpos : ∀ f ∈ fs, 0 < f.payload.length)
    (hlen : ∀ f ∈ fs, f.payload.length < 2 ^ 32)
    (hz8 : zhdr.length = 8) (hz0 : readUInt32BE zhdr 4 = 0) :
    (feedChunks ((encodeFrames fs ++ (zhdr ++ rest)) :: more)).emitted =
      frameEmissions fs ∧
    routeAll (feedChunks ((encodeFrames fs ++ (zhdr ++ rest)) :: more)).emitted =
      (((fs.filter (fun f => !(f.ftype == 2))).map Frame.payload).flatten,
       ((fs.filter (fun f => f.ftype == 2)).map Frame.payload).flatten) := by
  have hfirst : feedChunk initDemux (encodeFrames fs ++ (zhdr ++ rest)) =
      ⟨frameEmissions fs, some zhdr, rest⟩ := by
    rw [feedChunk_append initDemux (encodeFrames fs) (zhdr ++ rest)]
    have hdec : feedChunk initDemux (encodeFrames fs) =
        ⟨frameEmissions fs, none, []⟩ := by
      simp [feedChunk, initDemux, demuxHandler_encodeFrames fs hpos hlen]
    rw [hdec]
    have h8 : 8 ≤ (zhdr ++ rest).length := by
      simp only [List.length_append]
      omega
    have htake : (zhdr ++ rest).take 8 = zhdr := List.take_left' hz8
    have hdrop : (zhdr ++ rest).drop 8 = rest := List.drop_left' hz8
    have h8' : 8 ≤ zhdr.length + rest.length := by
      simp only [List.length_append] at h8
      omega
    simp [feedChunk, demuxHandler, if_pos h8, htake, hdrop, demuxLoop, hz0, h8']
  have hrun : feedChunks ((encodeFrames fs ++ (zhdr ++ rest)) :: more) =
      ⟨frameEmissions fs, some zhdr, rest ++ more.flatten⟩ := by
    rw [feedChunks, List.foldl_cons, hfirst,
      foldl_feedChunk_stuck_zero more (frameEmissions fs) zhdr hz0 rest]
  rw [hrun]
  exact ⟨rfl, routeAll_frameEmissions fs⟩

/-- Concrete instance of `C8_zero_length_frame`: one stdout frame, then a
zero-length frame, then trailing bytes and an extra chunk that are never
decoded. -/
theorem C8_zero_length_frame_witness :
    (feedChunks ((encodeFrames [⟨1, 0, 0, 0, [42]⟩] ++
        ([0, 0, 0, 0, 0, 0, 0, 0] ++ [7, 7])) :: [[9, 9, 9]])).emitted =
      frameEmissions [⟨1, 0, 0, 0, [42]⟩] ∧
    routeAll (feedChunks ((encodeFrames [⟨1, 0, 0, 0, [42]⟩] ++
        ([0, 0, 0, 0, 0, 0, 0, 0] ++ [7, 7])) :: [[9, 9, 9]])).emitted =
      (((([⟨1, 0, 0, 0, [42]⟩] : List Frame).filter
          (fun f => !(f.ftype == 2))).map Frame.payload).flatten,
       ((([⟨1, 0, 0, 0, [42]⟩] : List Frame).filter
          (fun f => f.ftype == 2)).map Frame.payload).flatten) :=
  C8_zero_length_frame [⟨1, 0, 0, 0, [42]⟩] [0, 0, 0, 0, 0, 0, 0, 0] [7, 7]
    [[9, 9, 9]] (by decide) (by decide) (by decide) (by decide)

/-! ## C7: progress-label derivation (`waitForFinishInstallation`, 355-366)

On the continue path the loop compares the body's `installationProgress`
(string or `null`) with the remembered `currentProgress` (initially the empty
string) under strict equality.  Equal and truthy and not containing
`'Creating image'` → a tick; equal otherwise → nothing; changed and non-null →
a label derived by `split(',')` (`tmp.length === 2 ? tmp[1] : tmp[0]`, then
`.trim()`); changed to `null` → the generic waiting label.  Afterwards
`currentProgress` is set to the polled value unconditionally. -/

/-- JavaScript `s.split(',')` on the character list of `s`. -/
def splitOnComma : List Char → List (List Char)
  | [] => [[]]
  | c :: cs =>
    match splitOnComma cs with
    | [] => [[]]
    | h :: t => if c = ',' then [] :: h :: t else (c :: h) :: t

/-- Whitespace for the purposes of JavaScript `String.prototype.trim`. -/
def isSpaceChar (c : Char) : Bool :=
  c = ' ' || c = '\t' || c = '\n' || c = '\r'

/-- JavaScript `s.trim()`. -/
def jsTrim (s : List Char) : List Char :=
  ((s.dropWhile isSpaceChar).reverse.dropWhile isSpaceChar).reverse

/-- Whether the pattern matches at the very front of the text. -/
def matchesFront : List Char → List Char → Bool
  | [], _ => true
  | _ :: _, [] => false
  | p :: ps, c :: cs => (p == c) && matchesFront ps cs

/-- Whether the pattern occurs anywhere in the text:
`text.indexOf(pattern) !== -1`. -/
def containsChars (pat : List Char) : List Char → Bool
  | [] => matchesFront pat []
  | c :: cs => matchesFront pat (c :: cs) || containsChars pat cs

/-- The label printed for a changed, non-null progress string:
`tmp = s.split(','); (tmp.length === 2 ? tmp[1] : tmp[0]).trim()`. -/
def installProgressLabel (s : String) : String :=
  match splitOnComma s.toList with
  | [a, b] => String.mk (jsTrim b)
  | a :: _ => String.mk (jsTrim a)
  | [] => ""

/-- What one continue-path poll prints. -/
inductive ProgressOutput where
  | tick
  | label (s : String)
  | waitingToStart
  | noOutput
  deriving DecidableEq

/-- The progress branch of the poll callback, given the remembered
`currentProgress` and the polled `installationProgress`. -/
def progressPrint (current progress : Option String) : ProgressOutput :=
  if current = progress then
    match current with
    | some s =>
      if s != "" && !containsChars "Creating image".toList s.toList then
        .tick
      else .noOutput
    | none => .noOutput
  else
    match progress with
    | some s => .label (installProgressLabel s)
    | none => .waitingToStart

/-- Run the continue path over a sequence of polled progress values,
starting from the initial `currentProgress = ''`. -/
def progressRunAux : Option String → List (Option String) → List ProgressOutput
  | _, [] => []
  | cur, p :: ps => progressPrint cur p :: progressRunAux p ps

/-- The outputs printed across a poll sequence (`currentProgress` starts as
the empty string). -/
def progressRun (ps : List (Option String)) : List ProgressOutput :=
  progressRunAux (some "") ps

/-- C7 counterexample, at concrete inputs: (i) for progress `"a,b,c"` —
three comma-separated parts — the printed label is the first part `"a"`, not
the whole string; (ii) two consecutive polls with the identical progress text
`"Creating image"` print nothing at all, not a tick; (iii) labels are
trimmed, so progress `" x "` prints `"x"`, not the whole string `" x "`;
(iv) a repeated null progress prints nothing rather than the waiting
label. -/
theorem C7_counterexample :
    (progressPrint (some "") (some "a,b,c") = ProgressOutput.label "a" ∧
      ProgressOutput.label "a" ≠ ProgressOutput.label "a,b,c") ∧
    (progressPrint (some "Creating image") (some "Creating image") =
        ProgressOutput.noOutput ∧
      ProgressOutput.noOutput ≠ ProgressOutput.tick) ∧
    (progressPrint (some "") (some " x ") = ProgressOutput.label "x" ∧
      ProgressOutput.label "x" ≠ ProgressOutput.label " x ") ∧
    (progressPrint none none = ProgressOutput.noOutput ∧
      ProgressOutput.noOutput ≠ ProgressOutput.waitingToStart) := by
  decide

/-- C7 amended: when the polled progress differs from the previous value, a
non-null progress prints as label the trimmed second comma-part when
splitting yields exactly two parts and the trimmed first comma-part otherwise
(which is the whole string only when no comma occurs), while a null progress
prints the generic waiting label — in particular on the very first poll,
since the remembered value starts as the empty string; when the polled
progress equals the previous value, a tick is printed only for a non-null,
non-empty value not containing `'Creating image'`, and nothing otherwise. -/
theorem C7_progress_labels (cur cur2 cur3 : Option String) (s s2 t u : String)
    (a b a2 : List Char) (rest2 : List (List Char)) (ps : List (Option String))
    (hne : cur ≠ some s) (hs : splitOnComma s.toList = [a, b])
    (hne2 : cur2 ≠ some s2) (hs2 : splitOnComma s2.toList = a2 :: rest2)
    (hr2 : rest2.length ≠ 1) (hne3 : cur3 ≠ none) (ht : t ≠ "")
    (htc : containsChars "Creating image".toList t.toList = false)
    (hu : u = "" ∨ containsChars "Creating image".toList u.toList = true) :
    progressPrint cur (some s) = ProgressOutput.label (String.mk (jsTrim b)) ∧
    progressPrint cur2 (some s2) = ProgressOutput.label (String.mk (jsTrim a2)) ∧
    progressPrint cur3 none = ProgressOutput.waitingToStart ∧
    progressPrint (some t) (some t) = ProgressOutput.tick ∧
    progressPrint (some u) (some u) = ProgressOutput.noOutput ∧
    progressPrint none none = ProgressOutput.noOutput ∧
    (progressRun (none :: ps)).head? = some ProgressOutput.waitingToStart := by
  have hs' : splitOnComma s.data = [a, b] := hs
  have hs2' : splitOnComma s2.data = a2 :: rest2 := hs2
  have htc' : containsChars "Creating image".data t.data = false := htc
  have hu' : u = "" ∨ containsChars "Creating image".data u.data = true := hu
  refine ⟨?_, ?_, ?_, ?_, ?_, rfl, ?_⟩
  · simp [progressPrint, hne, installProgressLabel, hs']
  · rcases rest2 with _ | ⟨r1, rest3⟩
    · simp [progressPrint, hne2, installProgressLabel, hs2']
    · rcases rest3 with _ | ⟨r2, rest4⟩
      · exact absurd rfl hr2
      · simp [progressPrint, hne2, installProgressLabel, hs2']
  · simp [progressPrint, hne3]
  · simp [progressPrint, ht, htc']
  · rcases hu' with hu' | hu'
    · subst hu'
      simp [progressPrint]
    · simp [progressPrint, hu']
  · simp [progressRun, progressRunAux, progressPrint]

/-- Concrete instance of `C7_progress_labels`: labels for `"a,b"` (two
parts), `"a,b,c"` (three parts), a first-poll null, a repeated plain
progress, and a repeated `"Creating image"` progress. -/
theorem C7_progress_labels_witness :
    progressPrint (some "") (some "a,b") =
      ProgressOutput.label (String.mk (jsTrim ['b'])) ∧
    progressPrint (some "") (some "a,b,c") =
      ProgressOutput.label (String.mk (jsTrim ['a'])) ∧
    progressPrint (some "") none = ProgressOutput.waitingToStart ∧
    progressPrint (some "Downloading") (some "Downloading") = ProgressOutput.tick ∧
    progressPrint (some "Creating image") (some "Creating image") =
      ProgressOutput.noOutput ∧
    progressPrint none none = ProgressOutput.noOutput ∧
    (progressRun [none, some "x"]).head? = some ProgressOutput.waitingToStart :=
  C7_progress_labels (some "") (some "") (some "") "a,b" "a,b,c" "Downloading"
    "Creating image" ['a'] ['b'] ['a'] [['b'], ['c']] [some "x"]
    (by decide) (by decide) (by decide) (by decide) (by decide) (by decide)
    (by decide) (by decide) (Or.inr (by decide))

/-! ## C9: the health sub-wait (`waitForHealthy`, `waitForFinishInstallation`)

`waitForFinishInstallation` transfers control to `waitForHealthy` only inside
its `installationState === 'installed'` branch (and only when the caller
requested the health wait); `waitForHealthy` polls the same
`/api/v1/apps/<id>` resource on the same 1000 ms `setTimeout` cadence,
checks nothing in the body but `health === 'healthy'` (deliberately not the
installation state), and succeeds on the first healthy poll.  The phase
machine below tracks which loop is running across the successful-response
bodies seen by the install/backup/restore/clone flows. -/

/-- Which waiting loop is active. -/
inductive WaitPhase where
  | installing
  | healthWaiting
  | succeeded
  | failed (msg : Option String)
  deriving DecidableEq

/-- The phase transition taken on one successful (HTTP 200) poll body. -/
def waitPhaseStep (waitForHealthcheck : Bool) : WaitPhase → AppResponseBody →
    WaitPhase
  | .installing, b =>
    if b.installationState = "installed" then
      (if waitForHealthcheck then .healthWaiting else .succeeded)
    else if b.installationState = "error" then .failed b.installationProgress
    else .installing
  | .healthWaiting, b =>
    if b.health = some "healthy" then .succeeded else .healthWaiting
  | p, _ => p

/-- Run the wait over a sequence of poll bodies, starting in the
installation loop. -/
def waitPhaseRun (waitForHealthcheck : Bool) (bodies : List AppResponseBody) :
    WaitPhase :=
  bodies.foldl (waitPhaseStep waitForHealthcheck) .installing

/-- Whether a phase is the failure terminal. -/
def isFailedPhase : WaitPhase → Bool
  | .failed _ => true
  | _ => false

/-- The polling interval of `waitForHealthy` (`setTimeout(checkStatus, 1000)`,
also used to delay its first poll). -/
def waitForHealthyPollDelayMs : Nat := 1000

/-- The polling interval of `waitForFinishInstallation`. -/
def waitForFinishInstallationPollDelayMs : Nat := 1000

/-- The resource polled by `waitForHealthy`. -/
def waitForHealthyUrl (appId : String) : String :=
  "/api/v1/apps/" ++ appId

/-- The resource polled by `waitForFinishInstallation`. -/
def waitForFinishInstallationUrl (appId : String) : String :=
  "/api/v1/apps/" ++ appId

theorem waitPhaseRun_healthWaiting_installed (wfh : Bool) :
    ∀ (bodies : List AppResponseBody) (p : WaitPhase),
      bodies.foldl (waitPhaseStep wfh) p = .healthWaiting →
      p = .healthWaiting ∨ ∃ b ∈ bodies, b.installationState = "installed" := by
  intro bodies
  induction bodies with
  | nil => intro p h; exact Or.inl h
  | cons b rest ih =>
    intro p h
    rcases ih (waitPhaseStep wfh p b) h with h' | ⟨x, hx, hxs⟩
    · cases p with
      | installing =>
        by_cases hb : b.installationState = "installed"
        · exact Or.inr ⟨b, List.mem_cons_self b rest, hb⟩
        · by_cases he : b.installationState = "error"
          · simp [waitPhaseStep, hb, he] at h'
          · simp [waitPhaseStep, hb, he] at h'
      | healthWaiting => exact Or.inl rfl
      | succeeded => simp [waitPhaseStep] at h'
      | failed m => simp [waitPhaseStep] at h'
    · exact Or.inr ⟨x, List.mem_cons_of_mem b hx, hxs⟩

theorem healthWait_no_failure (wfh : Bool) (bodies : List AppResponseBody) :
    bodies.foldl (waitPhaseStep wfh) .healthWaiting = .healthWaiting ∨
    bodies.foldl (waitPhaseStep wfh) .healthWaiting = .succeeded := by
  induction bodies with
  | nil => exact Or.inl rfl
  | cons b rest ih =>
    by_cases hb : b.health = some "healthy"
    · simp only [List.foldl_cons, waitPhaseStep, if_pos hb]
      right
      clear ih
      induction rest with
      | nil => rfl
      | cons c rest ih' => simpa [waitPhaseStep] using ih'
    · simpa only [List.foldl_cons, waitPhaseStep, if_neg hb] using ih

theorem healthWait_first_healthy (wfh : Bool) :
    ∀ (pre : List AppResponseBody), (∀ x ∈ pre, x.health ≠ some "healthy") →
      pre.foldl (waitPhaseStep wfh) .healthWaiting = .healthWaiting := by
  intro pre
  induction pre with
  | nil => intro _; rfl
  | cons b rest ih =>
    intro hpre
    have hb : b.health ≠ some "healthy" := hpre b (List.mem_cons_self b rest)
    simp only [List.foldl_cons, waitPhaseStep, if_neg hb]
    exact ih (fun x hx => hpre x (List.mem_cons_of_mem b hx))

/-- C9: the health sub-wait starts only after a poll body satisfied the
primary completion predicate (`installationState = 'installed'`); it polls
the same application resource as the installation wait at the same fixed
1-second cadence; it has no failure outcome of its own; and starting from the
health wait, the run stays in the health wait while every body is unhealthy
and succeeds exactly on the first body whose `health` is `'healthy'`. -/
theorem C9_health_wait (bodies pre anyBodies : List AppResponseBody)
    (b : AppResponseBody) (appId : String)
    (hrun : waitPhaseRun true bodies = .healthWaiting)
    (hpre : ∀ x ∈ pre, x.health ≠ some "healthy")
    (hb : b.health = some "healthy") :
    (∃ x ∈ bodies, x.installationState = "installed") ∧
    waitForHealthyUrl appId = waitForFinishInstallationUrl appId ∧
    waitForHealthyPollDelayMs = 1000 ∧
    waitForFinishInstallationPollDelayMs = 1000 ∧
    isFailedPhase (anyBodies.foldl (waitPhaseStep true) .healthWaiting) = false ∧
    pre.foldl (waitPhaseStep true) .healthWaiting = .healthWaiting ∧
    (pre ++ [b]).foldl (waitPhaseStep true) .healthWaiting = .succeeded := by
  have hfirst : pre.foldl (waitPhaseStep true) .healthWaiting = .healthWaiting :=
    healthWait_first_healthy true pre hpre
  refine ⟨?_, rfl, rfl, rfl, ?_, hfirst, ?_⟩
  · rcases waitPhaseRun_healthWaiting_installed true bodies .installing hrun with
      h | h
    · exact absurd h (by simp)
    · exact h
  · rcases healthWait_no_failure true anyBodies with h | h <;>
      simp [isFailedPhase, h]
  · rw [List.foldl_append, hfirst]
    simp [waitPhaseStep, hb]

/-- Concrete instance of `C9_health_wait`: two install polls reaching the
health wait, one unhealthy poll, then a healthy poll. -/
theorem C9_health_wait_witness :
    (∃ x ∈ [(⟨"pending_install", some "10,Downloading", none⟩ : AppResponseBody),
        ⟨"installed", none, some "starting"⟩],
      x.installationState = "installed") ∧
    waitForHealthyUrl "app1" = waitForFinishInstallationUrl "app1" ∧
    waitForHealthyPollDelayMs = 1000 ∧
    waitForFinishInstallationPollDelayMs = 1000 ∧
    isFailedPhase
      ([(⟨"installed", none, some "starting"⟩ : AppResponseBody),
        ⟨"error", some "boom", none⟩].foldl (waitPhaseStep true) .healthWaiting) =
      false ∧
    [(⟨"installed", none, some "starting"⟩ : AppResponseBody)].foldl
      (waitPhaseStep true) .healthWaiting = .healthWaiting ∧
    ([(⟨"installed", none, some "starting"⟩ : AppResponseBody)] ++
      [(⟨"installed", none, some "healthy"⟩ : AppResponseBody)]).foldl
      (waitPhaseStep true) .healthWaiting = .succeeded :=
  C9_health_wait
    [⟨"pending_install", some "10,Downloading", none⟩,
      ⟨"installed", none, some "starting"⟩]
    [⟨"installed", none, some "starting"⟩]
    [⟨"installed", none, some "starting"⟩, ⟨"error", some "boom", none⟩]
    ⟨"installed", none, some "healthy"⟩ "app1"
    (by decide) (by decide) (by decide)
